import Mathlib

/-!
Shallow embedding of the PyGenesys model-database builder
(pygenesys/utils/db_creator.py).  Each definition named after a source
function mirrors the row-building logic of that function.  SQLite calls
(CREATE TABLE / INSERT / commit) are abstracted into the returned row
lists; where the source conditionally skips table creation, that fact is
kept as a Boolean created flag.  Python dict attributes keyed by region
that the source reads unconditionally are modelled as total functions;
the dicts whose emptiness the source tests (cost_variable, cost_fixed)
and the dicts the source iterates over (demand, distribution,
capacity_factor_tech) are association lists in iteration order.  Years
are Int, real-valued data is the rationals; a Python dict subscript that
can raise KeyError is modelled with Except.
-/

/-- Association-list lookup modelling a Python dict subscript: returns the
value of the first matching key, or a KeyError (as Except.error) when the
key is absent. -/
def lookupDict (d : List (String × β)) (k : String) : Except String β :=
  match d.find? (fun p => p.1 == k) with
  | some p => Except.ok p.2
  | none => Except.error ("KeyError: " ++ k)

/-- Lookup in a vintage-to-capacity association list.  The source only
looks up keys previously read from the same dict, so the default value 0
for a missing key is never reached on the inputs the source produces. -/
def lookupCap (d : List (Int × ℚ)) (k : Int) : ℚ :=
  match d.find? (fun p => p.1 == k) with
  | some p => p.2
  | none => 0

/-- Imperative row accumulation (entries += data inside a loop) with
Python exception propagation: the first error aborts the whole loop and
the rows accumulated so far are discarded. -/
def exceptFlatMap (f : α → Except String (List β)) : List α → Except String (List β)
  | [] => Except.ok []
  | a :: l =>
    match f a with
    | Except.error e => Except.error e
    | Except.ok bs =>
      match exceptFlatMap f l with
      | Except.error e => Except.error e
      | Except.ok rest => Except.ok (bs ++ rest)

/-- The list produced by itertools.product(xs, ys): all pairs, first
component outermost. -/
def prodList (xs : List α) (ys : List β) : List (α × β) :=
  xs.flatMap (fun x => ys.map (fun y => (x, y)))

/-- Python zip of a fresh list against a shared iterator: returns the
pairs together with the part of the iterator left unconsumed, so that a
later zip against the same iterator resumes where this one stopped.  When
the first list runs out first, exactly that many iterator elements are
consumed; when the iterator runs out first, it is fully consumed. -/
def zipIter : List α → List β → List (α × β) × List β
  | [], it => ([], it)
  | _ :: _, [] => ([], [])
  | a :: as, b :: bs =>
    let res := zipIter as bs
    ((a, b) :: res.1, res.2)

/-- The scalar-or-series value of a capacity-factor entry (list or
np.ndarray versus int or float in the source). -/
inductive CFData where
  | series (vals : List ℚ)
  | scalar (c : ℚ)
deriving DecidableEq

/-- The attributes of a Technology object that the database builder
reads.  Region-keyed dicts the source subscripts unconditionally
(tech_lifetime, existing_capacity, efficiency, input_comm, output_comm)
are total functions of the region; input_comm and output_comm are
collapsed to the commodity name the source extracts from them.  The
cost dicts, whose emptiness the source tests and whose region lookup can
raise, are association lists from region to a year-indexed cost series;
capacity_factor_tech is an association list in dict iteration order. -/
structure Technology where
  tech_name : String
  regions : List String
  tech_lifetime : String → ℚ
  existing_capacity : String → List (Int × ℚ)
  cost_variable : List (String × (Int → ℚ))
  cost_fixed : List (String × (Int → ℚ))
  efficiency : String → ℚ
  input_comm : String → String
  output_comm : String → String
  capacity_factor_tech : List (String × CFData)
  units : String

/-- The attributes of a DemandCommodity object that the database builder
reads: its name and units, the region-keyed annual demand series, and
the region-keyed time-slice distribution series, both as association
lists in dict iteration order. -/
structure DemandCommodity where
  comm_name : String
  units : String
  demand : List (String × List ℚ)
  distribution : List (String × List ℚ)

/-- A row of the Demand table (regions, periods, demand_comm, demand,
demand_units, demand_notes). -/
structure DemandRow where
  regions : String
  periods : Int
  demand_comm : String
  demand : ℚ
  demand_units : String
  demand_notes : String
deriving DecidableEq

/-- A row of the DemandSpecificDistribution table (regions, season_name,
time_of_day_name, demand_name, dds, dds_notes). -/
structure DSDRow where
  regions : String
  season_name : String
  time_of_day_name : String
  demand_name : String
  dds : ℚ
  dds_notes : String
deriving DecidableEq

/-- A row of the Efficiency table (regions, input_comm, tech, vintage,
output_comm, efficiency, eff_notes). -/
structure EffRow where
  regions : String
  input_comm : String
  tech : String
  vintage : Int
  output_comm : String
  efficiency : ℚ
  eff_notes : String
deriving DecidableEq

/-- A row of the ExistingCapacity table (regions, tech, vintage,
exist_cap, exist_cap_units, exist_cap_notes). -/
structure ExCapRow where
  regions : String
  tech : String
  vintage : Int
  exist_cap : ℚ
  exist_cap_units : String
  exist_cap_notes : String
deriving DecidableEq

/-- A row of the CostVariable or CostFixed table (regions, periods, tech,
vintage, cost, cost_units, cost_notes); both tables share this shape. -/
structure CostRow where
  regions : String
  periods : Int
  tech : String
  vintage : Int
  cost : ℚ
  cost_units : String
  cost_notes : String
deriving DecidableEq

/-- A row of the CapacityFactorTech table (regions, season_name,
time_of_day_name, tech, cf_tech, cf_tech_notes). -/
structure CFTRow where
  regions : String
  season_name : String
  time_of_day_name : String
  tech : String
  cf_tech : ℚ
  cf_tech_notes : String
deriving DecidableEq

/-- A row of the SegFrac table (season_name, time_of_day_name, segfrac,
segfrac_notes). -/
structure SegFracRow where
  season_name : String
  time_of_day_name : String
  segfrac : ℚ
  segfrac_notes : String
deriving DecidableEq

/-- The outcome of one table-writing function: whether the CREATE TABLE
statement was executed, and the rows inserted. -/
structure TableResult (ρ : Type) where
  created : Bool
  rows : List ρ
deriving DecidableEq

/-- Decidable equality of Except outcomes, used to evaluate the embedded
fallible table writers at concrete inputs. -/
instance [DecidableEq ε] [DecidableEq α] : DecidableEq (Except ε α) := fun x y =>
  match x, y with
  | Except.error a, Except.error b =>
    if h : a = b then isTrue (congrArg Except.error h)
    else isFalse (fun hc => h (Except.error.inj hc))
  | Except.ok a, Except.ok b =>
    if h : a = b then isTrue (congrArg Except.ok h)
    else isFalse (fun hc => h (Except.ok.inj hc))
  | Except.error _, Except.ok _ => isFalse (fun hc => Except.noConfusion hc)
  | Except.ok _, Except.error _ => isFalse (fun hc => Except.noConfusion hc)

/-- An open sqlite3 connection handle. -/
inductive Conn where
  | live
deriving DecidableEq

/-- Embedding of establish_connection: the outcome of sqlite3.connect is
passed in as attempt.  The source initialises conn = None, tries the
connect call, and on any exception prints two messages and falls
through, returning the still-None conn; no error is re-raised. -/
def establish_connection (attempt : Except String Conn) : Option Conn :=
  match attempt with
  | Except.ok c => some c
  | Except.error _ => none

/-- Embedding of create_time_season: the season labels S1..Sn.  The
source wraps each label in a singleton list and every consumer unwraps
it with a [0] subscript; the wrapping is inlined away here. -/
def create_time_season (n_seasons : Nat) : List String :=
  (List.range n_seasons).map (fun i => "S" ++ toString (i + 1))

/-- Embedding of create_time_of_day: the hour labels H1..Hm, with the
singleton wrapping inlined as for create_time_season. -/
def create_time_of_day (n_hours : Nat) : List String :=
  (List.range n_hours).map (fun i => "H" ++ toString (i + 1))

/-- Modelled from the spec: the future_years input of the builder, the
ordered arithmetic sequence from the start year to the end year stepped
by the period spacing.  It is computed by the model-info component,
which is not among the provided source files. -/
def futureYears (start stop step : Int) : List Int :=
  (List.range (((stop - start) / step).toNat + 1)).map (fun i => start + step * i)

/-- Embedding of create_time_periods: the rows of the time_periods
table.  When existing_years is empty a single existing entry one year
before the first future year is synthesized; a boundary year one past
the last future year, tagged f, is always appended. -/
def create_time_periods (future_years existing_years : List Int) : List (Int × String) :=
  let past_horizon :=
    if existing_years.length = 0 then [(future_years.headI - 1, "e")]
    else existing_years.map (fun y => (y, "e"))
  let future_horizon :=
    future_years.map (fun y => (y, "f")) ++ [(future_years.getLastD 0 + 1, "f")]
  past_horizon ++ future_horizon

/-- Modelled from the spec: the per-slice fraction-of-a-year weight
1 / (seasons times hours) passed to create_segfrac.  The value is
computed by the model-info component, which is not among the provided
source files. -/
def segFracValue (n m : Nat) : ℚ := 1 / (n * m)

/-- Embedding of create_segfrac: one row per element of
itertools.product(seasons, hours), all carrying the given segfrac
weight. -/
def create_segfrac (segfrac : ℚ) (seasons hours : List String) : List SegFracRow :=
  (prodList seasons hours).map (fun ts => ⟨ts.1, ts.2, segfrac, "fraction of year"⟩)

/-- Embedding of create_demand_table: for each demand commodity and each
region of its demand dict, the annual series is paired with the year
list by zip, which silently truncates to the shorter of the two. -/
def create_demand_table (demand_list : List DemandCommodity) (years : List Int) :
    List DemandRow :=
  demand_list.flatMap (fun dc =>
    dc.demand.flatMap (fun rd =>
      (rd.2.zip years).map (fun dy =>
        (⟨rd.1, dy.2, dc.comm_name, dy.1, dc.units, ""⟩ : DemandRow))))

/-- The region loop of create_demand_specific_distribution: the
time-slice iterator (built once per commodity from
itertools.product(hours, seasons)) is threaded through the regions, so
each zip consumes it.  The slice component ts[0][0], an hour label, is
written into the season_name column and ts[1][0], a season label, into
the time_of_day_name column, exactly as the source does. -/
def dsd_region_rows (dc : DemandCommodity) :
    List (String × List ℚ) → List (String × String) → List DSDRow
  | [], _ => []
  | rd :: rest, it =>
    let z := zipIter rd.2 it
    z.1.map (fun p => (⟨rd.1, p.2.1, p.2.2, dc.comm_name, p.1, dc.units⟩ : DSDRow)) ++
      dsd_region_rows dc rest z.2

/-- Embedding of create_demand_specific_distribution: the rows of the
DemandSpecificDistribution table. -/
def create_demand_specific_distribution (demand_list : List DemandCommodity)
    (seasons hours : List String) : List DSDRow :=
  demand_list.flatMap (fun dc =>
    dsd_region_rows dc dc.distribution (prodList hours seasons))

/-- Embedding of create_efficiency: for each technology and each of its
regions, one row per key of the existing-capacity dict (no lifetime
filter; the try block around it only guards against a missing dict,
which the total-function modelling rules out) followed by one row per
future year. -/
def create_efficiency (technology_list : List Technology) (future : List Int) :
    List EffRow :=
  technology_list.flatMap (fun tech =>
    tech.regions.flatMap (fun place =>
      ((tech.existing_capacity place).map (fun p =>
        (⟨place, tech.input_comm place, tech.tech_name, p.1, tech.output_comm place,
          tech.efficiency place, "NULL"⟩ : EffRow))) ++
      future.map (fun year =>
        (⟨place, tech.input_comm place, tech.tech_name, year, tech.output_comm place,
          tech.efficiency place, "NULL"⟩ : EffRow))))

/-- The per-region rows of create_existing_capacity: the keys of the
existing-capacity dict are filtered to the vintages still alive in the
first simulation year, then one row per surviving vintage. -/
def existing_capacity_region_rows (tech : Technology) (first_year : Int)
    (place : String) : List ExCapRow :=
  let lifetime := tech.tech_lifetime place
  let years := ((tech.existing_capacity place).map Prod.fst).filter
    (fun y => ((first_year - y : Int) : ℚ) < lifetime)
  years.map (fun year =>
    ⟨place, tech.tech_name, year, lookupCap (tech.existing_capacity place) year,
      tech.units, ""⟩)

/-- The full entry list of create_existing_capacity. -/
def existing_capacity_entries (technology_list : List Technology)
    (time_horizon : List Int) : List ExCapRow :=
  technology_list.flatMap (fun tech =>
    tech.regions.flatMap (existing_capacity_region_rows tech time_horizon.headI))

/-- Embedding of create_existing_capacity: the CREATE TABLE statement is
executed only when the entry list is nonempty; on an empty entry list
the source returns early without creating the table. -/
def create_existing_capacity (technology_list : List Technology)
    (time_horizon : List Int) : TableResult ExCapRow :=
  let entries := existing_capacity_entries technology_list time_horizon
  if 0 < entries.length then ⟨true, entries⟩ else ⟨false, entries⟩

/-- One (year, vintage) candidate of the cost loops: a row is emitted
iff (year - vintage) < lifetime, and only then is the cost dict
subscripted with the region (so a missing region raises only when some
pair passes the age gate). -/
def cost_pair_entry (getCost : Technology → List (String × (Int → ℚ)))
    (tech : Technology) (place : String) (lifetime : ℚ) (yv : Int × Int) :
    Except String (List CostRow) :=
  if ((yv.1 - yv.2 : Int) : ℚ) < lifetime then
    match lookupDict (getCost tech) place with
    | Except.error e => Except.error e
    | Except.ok costs =>
      Except.ok [⟨place, yv.1, tech.tech_name, yv.2, costs yv.1, "", ""⟩]
  else Except.ok []

/-- The per-region body of the cost loops: the candidate vintage pool is
all keys of the existing-capacity dict (when nonempty) followed by the
time horizon, and the candidate pairs are
itertools.product(time_horizon, pool). -/
def cost_region_entries (getCost : Technology → List (String × (Int → ℚ)))
    (time_horizon : List Int) (tech : Technology) (place : String) :
    Except String (List CostRow) :=
  let lifetime := tech.tech_lifetime place
  let years :=
    if 0 < (tech.existing_capacity place).length then
      (tech.existing_capacity place).map Prod.fst ++ time_horizon
    else time_horizon
  exceptFlatMap (cost_pair_entry getCost tech place lifetime) (prodList time_horizon years)

/-- The per-technology body of the cost loops: a technology whose cost
dict is empty is skipped entirely (continue). -/
def cost_tech_entries (getCost : Technology → List (String × (Int → ℚ)))
    (time_horizon : List Int) (tech : Technology) : Except String (List CostRow) :=
  if 0 < (getCost tech).length then
    exceptFlatMap (cost_region_entries getCost time_horizon tech) tech.regions
  else Except.ok []

/-- The full entry list of create_variable_cost / create_fixed_cost. -/
def cost_entries (getCost : Technology → List (String × (Int → ℚ)))
    (time_horizon : List Int) (technology_list : List Technology) :
    Except String (List CostRow) :=
  exceptFlatMap (cost_tech_entries getCost time_horizon) technology_list

/-- The shared tail of the two cost-table writers: when the entry loops
finish without an exception the table is created and the entries
inserted; an exception aborts before the CREATE TABLE statement runs. -/
def build_cost_table (getCost : Technology → List (String × (Int → ℚ)))
    (technology_list : List Technology) (time_horizon : List Int) :
    Except String (TableResult CostRow) :=
  match cost_entries getCost time_horizon technology_list with
  | Except.error e => Except.error e
  | Except.ok entries => Except.ok ⟨true, entries⟩

/-- Embedding of create_variable_cost. -/
def create_variable_cost (technology_list : List Technology)
    (time_horizon : List Int) : Except String (TableResult CostRow) :=
  build_cost_table (fun t => t.cost_variable) technology_list time_horizon

/-- Embedding of create_fixed_cost. -/
def create_fixed_cost (technology_list : List Technology)
    (time_horizon : List Int) : Except String (TableResult CostRow) :=
  build_cost_table (fun t => t.cost_fixed) technology_list time_horizon

/-- The data series for one capacity-factor entry: a list is used as is,
a scalar is broadcast to np.ones(len(hours) * len(seasons)) times the
value. -/
def cft_data (n_slices : Nat) : CFData → List ℚ
  | CFData.series vals => vals
  | CFData.scalar c => List.replicate n_slices c

/-- The region loop of create_capacity_factor_tech: the time-slice
iterator, built once per technology from itertools.product(hours,
seasons), is threaded through the regions and consumed by each zip, so
a region reached after the iterator is exhausted yields no rows.  As in
the distribution table, the hour label lands in season_name and the
season label in time_of_day_name. -/
def cft_region_rows (tech_name : String) (n_slices : Nat) :
    List (String × CFData) → List (String × String) → List CFTRow
  | [], _ => []
  | pd :: rest, it =>
    let data := cft_data n_slices pd.2
    let z := zipIter data it
    z.1.map (fun p => (⟨pd.1, p.2.1, p.2.2, tech_name, p.1, ""⟩ : CFTRow)) ++
      cft_region_rows tech_name n_slices rest z.2

/-- Embedding of create_capacity_factor_tech: the rows of the
CapacityFactorTech table. -/
def create_capacity_factor_tech (technology_list : List Technology)
    (seasons hours : List String) : List CFTRow :=
  technology_list.flatMap (fun tech =>
    cft_region_rows tech.tech_name (hours.length * seasons.length)
      tech.capacity_factor_tech (prodList hours seasons))

/-- A sample technology with lifetime 15 and one existing vintage, both
cost dicts filled, used to exercise the cost tables. -/
def techA : Technology where
  tech_name := "T"
  regions := ["R"]
  tech_lifetime := fun _ => 15
  existing_capacity := fun _ => [(2010, 100)]
  cost_variable := [("R", fun _ => 5)]
  cost_fixed := [("R", fun _ => 3)]
  efficiency := fun _ => 1
  input_comm := fun _ => "coal"
  output_comm := fun _ => "elc"
  capacity_factor_tech := []
  units := "GW"

/-- A sample technology with lifetime 5 and an existing vintage from
2010, which is therefore already retired at a 2020 simulation start. -/
def techR : Technology where
  tech_name := "T"
  regions := ["R"]
  tech_lifetime := fun _ => 5
  existing_capacity := fun _ => [(2010, 100)]
  cost_variable := [("R", fun _ => 5)]
  cost_fixed := [("R", fun _ => 3)]
  efficiency := fun _ => 1
  input_comm := fun _ => "coal"
  output_comm := fun _ => "elc"
  capacity_factor_tech := []
  units := "GW"

/-- A technology carrying only a name and a capacity-factor dict; the
remaining attributes are irrelevant to create_capacity_factor_tech. -/
def cftTech (name : String) (cft : List (String × CFData)) : Technology where
  tech_name := name
  regions := []
  tech_lifetime := fun _ => 0
  existing_capacity := fun _ => []
  cost_variable := []
  cost_fixed := []
  efficiency := fun _ => 0
  input_comm := fun _ => ""
  output_comm := fun _ => ""
  capacity_factor_tech := cft
  units := ""

/-- A sample technology whose capacity-factor dict holds the same scalar
for two regions. -/
def techCFT2 : Technology :=
  cftTech "T" [("R1", CFData.scalar 1), ("R2", CFData.scalar 1)]

/-- A sample demand commodity with a one-slice distribution in one
region. -/
def dcDSD : DemandCommodity where
  comm_name := "elc"
  units := "GWh"
  demand := []
  distribution := [("R", [1])]

/-- A sample demand commodity whose annual series is shorter than the
year list it will be paired with. -/
def dc6 : DemandCommodity where
  comm_name := "elc"
  units := "GWh"
  demand := [("R", [5])]
  distribution := []

/-- Every element of a successful exceptFlatMap run comes from the output
of the loop body at some element of the input list. -/
theorem mem_of_exceptFlatMap {f : α → Except String (List β)} :
    ∀ {l : List α} {bs : List β} {b : β},
      exceptFlatMap f l = Except.ok bs → b ∈ bs →
      ∃ a ∈ l, ∃ bs2, f a = Except.ok bs2 ∧ b ∈ bs2 := by
  intro l
  induction l with
  | nil =>
    intro bs b h hb
    simp only [exceptFlatMap] at h
    injection h with h
    subst h
    simp at hb
  | cons a l ih =>
    intro bs b h hb
    simp only [exceptFlatMap] at h
    cases hfa : f a with
    | error e => rw [hfa] at h; cases h
    | ok bs1 =>
      rw [hfa] at h
      cases hrec : exceptFlatMap f l with
      | error e => rw [hrec] at h; cases h
      | ok rest =>
        rw [hrec] at h
        injection h with h
        subst h
        rcases List.mem_append.mp hb with h1 | h2
        · exact ⟨a, List.mem_cons_self a l, bs1, hfa, h1⟩
        · obtain ⟨a2, ha2, bs2, hfa2, hb2⟩ := ih hrec h2
          exact ⟨a2, List.mem_cons_of_mem _ ha2, bs2, hfa2, hb2⟩

/-- Membership in the itertools product list. -/
theorem mem_prodList {xs : List α} {ys : List β} {p : α × β} :
    p ∈ prodList xs ys ↔ p.1 ∈ xs ∧ p.2 ∈ ys := by
  cases p with
  | mk a b => simp [prodList]

/-- The itertools product of two lists has the product of their
lengths. -/
theorem prodList_length (xs : List α) (ys : List β) :
    (prodList xs ys).length = xs.length * ys.length := by
  induction xs with
  | nil => simp [prodList]
  | cons x xs ih =>
    have h : prodList (x :: xs) ys = ys.map (fun y => (x, y)) ++ prodList xs ys := by
      simp [prodList]
    rw [h, List.length_append, List.length_map, ih, List.length_cons]
    ring

/-- Summing a constant over a list multiplies it by the length. -/
theorem sum_map_const (l : List α) (c : ℚ) :
    (l.map (fun _ => c)).sum = l.length * c := by
  induction l with
  | nil => simp
  | cons a l ih =>
    simp [ih]
    ring

/-- Zip only ever consumes the first length-of-the-second-list elements
of its first argument. -/
theorem zip_take_length (xs : List α) (ys : List β) :
    (xs.take ys.length).zip ys = xs.zip ys := by
  induction xs generalizing ys with
  | nil => simp
  | cons x xs ih =>
    cases ys with
    | nil => simp
    | cons y ys => simp [List.take_succ_cons, ih]

/-- The pairs produced by a zip against an iterator are the ordinary zip
of the two lists. -/
theorem zipIter_fst : ∀ (xs : List α) (ys : List β), (zipIter xs ys).1 = xs.zip ys := by
  intro xs
  induction xs with
  | nil => intro ys; simp [zipIter]
  | cons x xs ih =>
    intro ys
    cases ys with
    | nil => simp [zipIter]
    | cons y ys => simp [zipIter, ih]

/-- Characterisation of the rows a successful cost-entry loop can emit:
each row is attributable to a technology of the list and a region of
that technology, its period is drawn from the time horizon, and it
passed the age gate against the lifetime of that technology in that
region. -/
theorem cost_entries_mem {getCost : Technology → List (String × (Int → ℚ))}
    {time_horizon : List Int} {techs : List Technology} {rows : List CostRow}
    {r : CostRow} (h : cost_entries getCost time_horizon techs = Except.ok rows)
    (hr : r ∈ rows) :
    ∃ tech ∈ techs, r.tech = tech.tech_name ∧ r.regions ∈ tech.regions ∧
      r.periods ∈ time_horizon ∧
      ((r.periods - r.vintage : Int) : ℚ) < tech.tech_lifetime r.regions := by
  obtain ⟨tech, htech, bs1, hf1, hb1⟩ := mem_of_exceptFlatMap h hr
  rw [cost_tech_entries] at hf1
  by_cases hc : 0 < (getCost tech).length
  · rw [if_pos hc] at hf1
    obtain ⟨place, hplace, bs2, hf2, hb2⟩ := mem_of_exceptFlatMap hf1 hb1
    rw [cost_region_entries] at hf2
    obtain ⟨yv, hyv, bs3, hf3, hb3⟩ := mem_of_exceptFlatMap hf2 hb2
    rw [cost_pair_entry] at hf3
    by_cases hg : ((yv.1 - yv.2 : Int) : ℚ) < tech.tech_lifetime place
    · rw [if_pos hg] at hf3
      cases hlk : lookupDict (getCost tech) place with
      | error e => rw [hlk] at hf3; cases hf3
      | ok costs =>
        rw [hlk] at hf3
        injection hf3 with hbs3
        subst hbs3
        simp only [List.mem_singleton] at hb3
        subst hb3
        refine ⟨tech, htech, rfl, hplace, ?_, hg⟩
        exact (mem_prodList.mp hyv).1
    · rw [if_neg hg] at hf3
      injection hf3 with hbs3
      subst hbs3
      simp at hb3
  · rw [if_neg hc] at hf1
    injection hf1 with hbs1
    subst hbs1
    simp at hb1

/-- A successful cost-table build means the entry loop succeeded, the
table was created, and the rows are exactly the loop output. -/
theorem build_cost_table_ok {getCost : Technology → List (String × (Int → ℚ))}
    {techs : List Technology} {time_horizon : List Int} {res : TableResult CostRow}
    (h : build_cost_table getCost techs time_horizon = Except.ok res) :
    cost_entries getCost time_horizon techs = Except.ok res.rows ∧
      res.created = true := by
  rw [build_cost_table] at h
  cases hce : cost_entries getCost time_horizon techs with
  | error e => rw [hce] at h; cases h
  | ok entries =>
    rw [hce] at h
    injection h with h
    subst h
    exact ⟨rfl, rfl⟩

/-- Characterisation of the rows of the ExistingCapacity entry loop:
each row is attributable to a technology of the list and a region of
that technology, its vintage is a key of the existing-capacity dict of
that region, and that vintage survives into the first year of the time
horizon. -/
theorem existing_capacity_entries_mem {techs : List Technology}
    {time_horizon : List Int} {r : ExCapRow}
    (h : r ∈ existing_capacity_entries techs time_horizon) :
    ∃ tech ∈ techs, r.tech = tech.tech_name ∧ r.regions ∈ tech.regions ∧
      r.vintage ∈ (tech.existing_capacity r.regions).map Prod.fst ∧
      ((time_horizon.headI - r.vintage : Int) : ℚ) < tech.tech_lifetime r.regions := by
  simp only [existing_capacity_entries, List.mem_flatMap] at h
  obtain ⟨tech, htech, place, hplace, hrow⟩ := h
  rw [existing_capacity_region_rows] at hrow
  simp only [List.mem_map, List.mem_filter] at hrow
  obtain ⟨year, ⟨hkey, hguard⟩, hrow⟩ := hrow
  subst hrow
  simp only [decide_eq_true_eq] at hguard
  refine ⟨tech, htech, rfl, hplace, ?_, hguard⟩
  simpa using hkey

/-- The row list of create_existing_capacity is the entry loop output
whether or not the table was created. -/
theorem create_existing_capacity_rows (techs : List Technology)
    (time_horizon : List Int) :
    (create_existing_capacity techs time_horizon).rows =
      existing_capacity_entries techs time_horizon := by
  rw [create_existing_capacity]
  split <;> rfl

/-- A technology whose cost dict is empty is skipped by the cost loops:
removing it from the build changes nothing, and alone it produces a
successfully created table with no rows. -/
theorem cost_skip_empty {getCost : Technology → List (String × (Int → ℚ))}
    {tech : Technology} (h : getCost tech = []) (th : List Int)
    (techs : List Technology) :
    build_cost_table getCost (tech :: techs) th = build_cost_table getCost techs th ∧
    build_cost_table getCost [tech] th = Except.ok ⟨true, []⟩ := by
  have hskip : cost_tech_entries getCost th tech = Except.ok [] := by
    rw [cost_tech_entries, h]
    simp
  have hcons : ∀ l, cost_entries getCost th (tech :: l) = cost_entries getCost th l := by
    intro l
    rw [cost_entries, cost_entries]
    simp only [exceptFlatMap, hskip]
    cases hrec : exceptFlatMap (cost_tech_entries getCost th) l with
    | error e => simp [hrec]
    | ok rest => simp [hrec]
  refine ⟨?_, ?_⟩
  · rw [build_cost_table, build_cost_table, hcons techs]
  · rw [build_cost_table, hcons [], cost_entries]
    simp [exceptFlatMap]

/-- C1: every row emitted into the CostVariable or CostFixed table is
attributable to a technology of the build and a region of that
technology, and its period minus its vintage is strictly below the
lifetime of that technology in that region — even though the candidate
vintage pool enumerates all keys of the existing-capacity dict (not
only surviving ones) together with the future time horizon. -/
theorem cost_tables_age_gate (techs : List Technology) (th : List Int)
    (resV resF : TableResult CostRow)
    (hV : create_variable_cost techs th = Except.ok resV)
    (hF : create_fixed_cost techs th = Except.ok resF) :
    (∀ r ∈ resV.rows, ∃ tech ∈ techs, r.tech = tech.tech_name ∧
      r.regions ∈ tech.regions ∧
      ((r.periods - r.vintage : Int) : ℚ) < tech.tech_lifetime r.regions) ∧
    (∀ r ∈ resF.rows, ∃ tech ∈ techs, r.tech = tech.tech_name ∧
      r.regions ∈ tech.regions ∧
      ((r.periods - r.vintage : Int) : ℚ) < tech.tech_lifetime r.regions) := by
  constructor
  · intro r hr
    obtain ⟨tech, htech, h1, h2, _, h4⟩ := cost_entries_mem (build_cost_table_ok hV).1 hr
    exact ⟨tech, htech, h1, h2, h4⟩
  · intro r hr
    obtain ⟨tech, htech, h1, h2, _, h4⟩ := cost_entries_mem (build_cost_table_ok hF).1 hr
    exact ⟨tech, htech, h1, h2, h4⟩

/-- Witness for cost_tables_age_gate at a concrete technology with one
surviving existing vintage and a one-period horizon. -/
theorem cost_tables_age_gate_witness :
    create_variable_cost [techA] [2020] = Except.ok
      ⟨true, [⟨"R", 2020, "T", 2010, 5, "", ""⟩, ⟨"R", 2020, "T", 2020, 5, "", ""⟩]⟩ ∧
    create_fixed_cost [techA] [2020] = Except.ok
      ⟨true, [⟨"R", 2020, "T", 2010, 3, "", ""⟩, ⟨"R", 2020, "T", 2020, 3, "", ""⟩]⟩ ∧
    ((∀ r ∈ (⟨true, [⟨"R", 2020, "T", 2010, 5, "", ""⟩,
        ⟨"R", 2020, "T", 2020, 5, "", ""⟩]⟩ : TableResult CostRow).rows,
      ∃ tech ∈ [techA], r.tech = tech.tech_name ∧ r.regions ∈ tech.regions ∧
        ((r.periods - r.vintage : Int) : ℚ) < tech.tech_lifetime r.regions) ∧
    (∀ r ∈ (⟨true, [⟨"R", 2020, "T", 2010, 3, "", ""⟩,
        ⟨"R", 2020, "T", 2020, 3, "", ""⟩]⟩ : TableResult CostRow).rows,
      ∃ tech ∈ [techA], r.tech = tech.tech_name ∧ r.regions ∈ tech.regions ∧
        ((r.periods - r.vintage : Int) : ℚ) < tech.tech_lifetime r.regions)) :=
  ⟨by decide, by decide,
    cost_tables_age_gate [techA] [2020] _ _ (by decide) (by decide)⟩

/-- C9: a technology whose cost-variable (respectively cost-fixed) dict
is empty is skipped by the corresponding cost loop: it contributes zero
rows (dropping it from the build changes nothing) and on its own still
yields a successfully created, empty table, so the build completes
without error. -/
theorem empty_cost_map_zero_rows (tech : Technology) (techs : List Technology)
    (th : List Int) :
    (tech.cost_variable = [] →
      create_variable_cost (tech :: techs) th = create_variable_cost techs th ∧
      create_variable_cost [tech] th = Except.ok ⟨true, []⟩) ∧
    (tech.cost_fixed = [] →
      create_fixed_cost (tech :: techs) th = create_fixed_cost techs th ∧
      create_fixed_cost [tech] th = Except.ok ⟨true, []⟩) := by
  constructor
  · intro h
    exact cost_skip_empty h th techs
  · intro h
    exact cost_skip_empty h th techs

/-- Witness for empty_cost_map_zero_rows at a concrete technology with
empty cost dicts. -/
theorem empty_cost_map_zero_rows_witness :
    create_variable_cost [cftTech "T" []] [2020] = Except.ok ⟨true, []⟩ ∧
    create_fixed_cost [cftTech "T" []] [2020] = Except.ok ⟨true, []⟩ :=
  ⟨((empty_cost_map_zero_rows (cftTech "T" []) [] [2020]).1 rfl).2,
   ((empty_cost_map_zero_rows (cftTech "T" []) [] [2020]).2 rfl).2⟩

/-- C5 counterexample: with a single technology whose only existing
vintage is already retired at the horizon start, the computed
ExistingCapacity row set is empty and the source returns early without
executing its CREATE TABLE statement, so the empty table is NOT
created. -/
theorem existing_capacity_skipped_when_empty :
    create_existing_capacity [techR] [2020] = ⟨false, []⟩ := by decide

/-- C5 amended: every table writer except create_existing_capacity
executes its CREATE TABLE statement whenever it completes (CostVariable
shown as the representative, with created = true on any successful
result), while the ExistingCapacity table is created exactly when its
computed row set is nonempty. -/
theorem empty_table_creation_amended (techs : List Technology) (th : List Int)
    (res : TableResult CostRow)
    (h : create_variable_cost techs th = Except.ok res) :
    ((create_existing_capacity techs th).created = true ↔
      existing_capacity_entries techs th ≠ []) ∧
    res.created = true := by
  constructor
  · simp only [create_existing_capacity]
    by_cases hlen : 0 < (existing_capacity_entries techs th).length
    · rw [if_pos hlen]
      simpa using List.length_pos.mp hlen
    · rw [if_neg hlen]
      simp only [List.length_pos, not_not] at hlen
      simp [hlen]
  · exact (build_cost_table_ok h).2

/-- Witness for empty_table_creation_amended at a concrete build. -/
theorem empty_table_creation_amended_witness :
    create_variable_cost [techA] [2020] = Except.ok
      ⟨true, [⟨"R", 2020, "T", 2010, 5, "", ""⟩, ⟨"R", 2020, "T", 2020, 5, "", ""⟩]⟩ ∧
    (((create_existing_capacity [techA] [2020]).created = true ↔
      existing_capacity_entries [techA] [2020] ≠ []) ∧
    (⟨true, [⟨"R", 2020, "T", 2010, 5, "", ""⟩,
      ⟨"R", 2020, "T", 2020, 5, "", ""⟩]⟩ : TableResult CostRow).created = true) :=
  ⟨by decide, empty_table_creation_amended [techA] [2020] _ (by decide)⟩

/-- C8 counterexample: when the connection attempt fails the source
catches the exception and returns None — the build goes on with no
usable handle and no error is surfaced to the caller. -/
theorem connection_failure_returns_none :
    establish_connection (Except.error "unreachable") = none := rfl

/-- C8 amended: establish_connection returns the handle on success and
None on failure; the failure is absorbed (after printing a warning) and
never re-raised, leaving the caller without a usable database handle. -/
theorem establish_connection_amended (e : String) (c : Conn) :
    establish_connection (Except.error e) = none ∧
    establish_connection (Except.ok c) = some c :=
  ⟨rfl, rfl⟩

/-- C2 counterexample: techR has lifetime 5 in region R and existing
vintage 2010, already retired at the 2020 horizon start (10 >= 5); the
vintage is filtered out of ExistingCapacity, yet create_efficiency
still emits a row for it, because the Efficiency loop enumerates every
key of the existing-capacity dict with no lifetime filter. -/
theorem retired_vintage_in_efficiency :
    techR.tech_lifetime "R" ≤ (((2020 : Int) - 2010 : Int) : ℚ) ∧
    (create_existing_capacity [techR] [2020]).rows = [] ∧
    create_efficiency [techR] [2020] =
      [⟨"R", "coal", "T", 2010, "elc", 1, "NULL"⟩,
       ⟨"R", "coal", "T", 2020, "elc", 1, "NULL"⟩] := by decide

/-- C3: evaluation at one season, one hour and a one-slice distribution:
the DemandSpecificDistribution row carries the hour label H1 in its
season_name column and the season label S1 in its time_of_day_name
column, and so does the CapacityFactorTech row — H1 is not a member of
the time_season labels and S1 is not a member of the time_of_day
labels, so both foreign keys dangle. -/
theorem fk_swapped_slice_labels :
    create_demand_specific_distribution [dcDSD] (create_time_season 1)
        (create_time_of_day 1) =
      [⟨"R", "H1", "S1", "elc", 1, "GWh"⟩] ∧
    "H1" ∉ create_time_season 1 ∧
    "S1" ∉ create_time_of_day 1 ∧
    create_capacity_factor_tech [cftTech "T" [("R", CFData.scalar 1)]]
        (create_time_season 1) (create_time_of_day 1) =
      [⟨"R", "H1", "S1", "T", 1, ""⟩] := by decide

/-- C6 counterexample: a demand series of length 1 paired with a
two-year horizon silently yields a single row — no error of any kind is
raised, the zip simply truncates. -/
theorem demand_rows_silent_truncation :
    create_demand_table [dc6] [2020, 2030] = [⟨"R", 2020, "elc", 5, "GWh", ""⟩] ∧
    (create_demand_table [dc6] [2020, 2030]).length = 1 := by decide

/-- C7: evaluation at one season, one hour and a technology whose
capacity-factor dict holds the scalar one-half for regions R1 and R2:
only R1 receives its broadcast row; R2 yields no rows at all because
the slice iterator built once per technology is already exhausted. -/
theorem capacity_factor_second_region_dropped :
    create_capacity_factor_tech [techCFT2] (create_time_season 1)
        (create_time_of_day 1) =
      [⟨"R1", "H1", "S1", "T", 1, ""⟩] ∧
    (create_capacity_factor_tech [techCFT2] (create_time_season 1)
        (create_time_of_day 1)).filter (fun r => r.regions == "R2") = [] := by decide

/-- C2 amended: a vintage of the existing-capacity dict with
first-future-year minus vintage at least the lifetime is filtered out
of ExistingCapacity and (provided the horizon starts at its first
element) cannot appear in any CostVariable or CostFixed row for that
region — but it DOES appear in an Efficiency row, because the
Efficiency loop enumerates every key of the dict with no lifetime
filter. -/
theorem retired_vintage_tables_amended (tech : Technology) (th : List Int)
    (place : String) (v : Int)
    (hmem : v ∈ (tech.existing_capacity place).map Prod.fst)
    (hret : tech.tech_lifetime place ≤ ((th.headI - v : Int) : ℚ))
    (hfirst : ∀ p ∈ th, th.headI ≤ p) :
    (∀ r ∈ (create_existing_capacity [tech] th).rows,
      r.regions = place → r.vintage ≠ v) ∧
    (∀ res, create_variable_cost [tech] th = Except.ok res →
      ∀ r ∈ res.rows, r.regions = place → r.vintage ≠ v) ∧
    (∀ res, create_fixed_cost [tech] th = Except.ok res →
      ∀ r ∈ res.rows, r.regions = place → r.vintage ≠ v) ∧
    (place ∈ tech.regions →
      ∃ r ∈ create_efficiency [tech] th, r.regions = place ∧ r.vintage = v) := by
  have hcost : ∀ (getCost : Technology → List (String × (Int → ℚ)))
      (res : TableResult CostRow),
      build_cost_table getCost [tech] th = Except.ok res →
      ∀ r ∈ res.rows, r.regions = place → r.vintage ≠ v := by
    intro getCost res hres r hr hreg hv
    obtain ⟨tech2, htech2, _, _, hper, hlt⟩ :=
      cost_entries_mem (build_cost_table_ok hres).1 hr
    simp only [List.mem_singleton] at htech2
    subst htech2
    rw [hreg, hv] at hlt
    have h2 : (th.headI - v : Int) ≤ (r.periods - v : Int) :=
      sub_le_sub_right (hfirst r.periods hper) v
    have h1 : ((th.headI - v : Int) : ℚ) ≤ ((r.periods - v : Int) : ℚ) :=
      Int.cast_le.mpr h2
    exact (not_lt.mpr (hret.trans h1)) hlt
  refine ⟨?_, fun res hres => hcost _ res hres, fun res hres => hcost _ res hres, ?_⟩
  · intro r hr hreg hv
    rw [create_existing_capacity_rows] at hr
    obtain ⟨tech2, htech2, _, _, _, hlt⟩ := existing_capacity_entries_mem hr
    simp only [List.mem_singleton] at htech2
    subst htech2
    rw [hreg, hv] at hlt
    exact (not_lt.mpr hret) hlt
  · intro hplace
    obtain ⟨pair, hpair, hv⟩ := List.mem_map.mp hmem
    refine ⟨⟨place, tech.input_comm place, tech.tech_name, v, tech.output_comm place,
      tech.efficiency place, "NULL"⟩, ?_, rfl, rfl⟩
    rw [create_efficiency]
    refine List.mem_flatMap.mpr ⟨tech, List.mem_singleton_self tech, ?_⟩
    refine List.mem_flatMap.mpr ⟨place, hplace, ?_⟩
    refine List.mem_append_left _ ?_
    refine List.mem_map.mpr ⟨pair, hpair, ?_⟩
    rw [hv]

/-- Witness for retired_vintage_tables_amended at techR, whose 2010
vintage is retired at a 2020 horizon start. -/
theorem retired_vintage_tables_amended_witness :
    ((2010 : Int) ∈ (techR.existing_capacity "R").map Prod.fst) ∧
    (techR.tech_lifetime "R" ≤ ((([2020] : List Int).headI - 2010 : Int) : ℚ)) ∧
    (∀ p ∈ ([2020] : List Int), (([2020] : List Int)).headI ≤ p) ∧
    ((∀ r ∈ (create_existing_capacity [techR] [2020]).rows,
      r.regions = "R" → r.vintage ≠ 2010) ∧
    (∀ res, create_variable_cost [techR] [2020] = Except.ok res →
      ∀ r ∈ res.rows, r.regions = "R" → r.vintage ≠ 2010) ∧
    (∀ res, create_fixed_cost [techR] [2020] = Except.ok res →
      ∀ r ∈ res.rows, r.regions = "R" → r.vintage ≠ 2010) ∧
    ("R" ∈ techR.regions →
      ∃ r ∈ create_efficiency [techR] [2020], r.regions = "R" ∧ r.vintage = 2010)) :=
  ⟨by decide, by decide, by decide,
    retired_vintage_tables_amended techR [2020] "R" 2010
      (by decide) (by decide) (by decide)⟩

/-- C4: the time-period table for Scenario B (start 2020, end 2050,
step 10, no existing vintages) is exactly (2019, e) followed by the
four future years and the boundary year 2051, all tagged f; in
general, with an empty existing-year list the table is the synthesized
existing entry one year before the first future year followed by the
future rows and the boundary row, and the boundary row one past the
last future year, tagged f, is a member for every existing-year
list. -/
theorem time_periods_scenario (fy ey eyAny : List Int) (hey : ey = []) :
    create_time_periods (futureYears 2020 2050 10) [] =
      [(2019, "e"), (2020, "f"), (2030, "f"), (2040, "f"), (2050, "f"), (2051, "f")] ∧
    create_time_periods fy ey =
      (fy.headI - 1, "e") :: (fy.map (fun y => (y, "f")) ++ [(fy.getLastD 0 + 1, "f")]) ∧
    (fy.getLastD 0 + 1, "f") ∈ create_time_periods fy eyAny := by
  refine ⟨by decide, ?_, ?_⟩
  · subst hey
    simp [create_time_periods]
  · simp only [create_time_periods]
    split <;> simp

/-- Witness for time_periods_scenario at concrete year lists. -/
theorem time_periods_scenario_witness :
    (([] : List Int) = []) ∧
    (create_time_periods (futureYears 2020 2050 10) [] =
      [(2019, "e"), (2020, "f"), (2030, "f"), (2040, "f"), (2050, "f"), (2051, "f")] ∧
    create_time_periods [2020] [] =
      (([2020] : List Int).headI - 1, "e") ::
        (([2020] : List Int).map (fun y => (y, "f")) ++
          [(([2020] : List Int).getLastD 0 + 1, "f")]) ∧
    (([2020] : List Int).getLastD 0 + 1, "f") ∈ create_time_periods [2020] [1999]) :=
  ⟨rfl, time_periods_scenario [2020] [] [1999] rfl⟩

/-- C6 amended: a per-region sequence shorter than its coordinate
sequence is silently truncated by zip — no error is reported and
min-of-the-two-lengths many rows are emitted; a sequence of length at
least N is paired positionally on exactly its first N entries.  Shown
for the Demand table on a single-region commodity and for
CapacityFactorTech on a single-region series. -/
theorem sequence_pairing_amended (name units0 region : String) (data : List ℚ)
    (years : List Int) (seasons hours : List String) :
    create_demand_table [⟨name, units0, [(region, data)], []⟩] years =
      ((data.take years.length).zip years).map (fun dy =>
        (⟨region, dy.2, name, dy.1, units0, ""⟩ : DemandRow)) ∧
    (create_demand_table [⟨name, units0, [(region, data)], []⟩] years).length =
      min data.length years.length ∧
    create_capacity_factor_tech [cftTech name [(region, CFData.series data)]]
        seasons hours =
      ((data.take (prodList hours seasons).length).zip (prodList hours seasons)).map
        (fun p => (⟨region, p.2.1, p.2.2, name, p.1, ""⟩ : CFTRow)) := by
  refine ⟨?_, ?_, ?_⟩
  · simp [create_demand_table, zip_take_length]
  · simp [create_demand_table]
  · simp [create_capacity_factor_tech, cftTech, cft_region_rows, cft_data,
      zipIter_fst, zip_take_length]

/-- C10: for positive season and hour counts, the SegFrac table built
with the per-slice weight one over (n times m) has exactly n times m
rows, keyed by exactly the Cartesian product of the season and hour
labels, all carrying that same weight, and the weights sum to exactly
one. -/
theorem segfrac_uniform_weights (n m : Nat) (hn : 0 < n) (hm : 0 < m) :
    (create_segfrac (segFracValue n m) (create_time_season n)
      (create_time_of_day m)).length = n * m ∧
    (create_segfrac (segFracValue n m) (create_time_season n)
        (create_time_of_day m)).map (fun r => (r.season_name, r.time_of_day_name)) =
      prodList (create_time_season n) (create_time_of_day m) ∧
    (∀ r ∈ create_segfrac (segFracValue n m) (create_time_season n)
        (create_time_of_day m), r.segfrac = segFracValue n m) ∧
    ((create_segfrac (segFracValue n m) (create_time_season n)
        (create_time_of_day m)).map (fun r => r.segfrac)).sum = 1 := by
  have hlen : (prodList (create_time_season n) (create_time_of_day m)).length = n * m := by
    rw [prodList_length]
    simp [create_time_season, create_time_of_day]
  refine ⟨?_, ?_, ?_, ?_⟩
  · rw [create_segfrac, List.length_map, hlen]
  · rw [create_segfrac, List.map_map]
    have hfun : ((fun r : SegFracRow => (r.season_name, r.time_of_day_name)) ∘
        fun ts : String × String =>
          (⟨ts.1, ts.2, segFracValue n m, "fraction of year"⟩ : SegFracRow)) =
        fun ts => ts := by
      funext ts
      rfl
    rw [hfun]
    simp
  · intro r hr
    rw [create_segfrac] at hr
    obtain ⟨ts, _, hr⟩ := List.mem_map.mp hr
    subst hr
    rfl
  · rw [create_segfrac, List.map_map]
    show ((prodList (create_time_season n) (create_time_of_day m)).map
      (fun _ => segFracValue n m)).sum = 1
    rw [sum_map_const, hlen, segFracValue]
    have hpos : (0 : ℚ) < (n : ℚ) * m := by
      have := Nat.mul_pos hn hm
      exact_mod_cast this
    push_cast
    rw [mul_one_div, div_self (ne_of_gt hpos)]

/-- Witness for segfrac_uniform_weights at two seasons and three
hours. -/
theorem segfrac_uniform_weights_witness :
    0 < 2 ∧ 0 < 3 ∧
    ((create_segfrac (segFracValue 2 3) (create_time_season 2)
      (create_time_of_day 3)).length = 2 * 3 ∧
    (create_segfrac (segFracValue 2 3) (create_time_season 2)
        (create_time_of_day 3)).map (fun r => (r.season_name, r.time_of_day_name)) =
      prodList (create_time_season 2) (create_time_of_day 3) ∧
    (∀ r ∈ create_segfrac (segFracValue 2 3) (create_time_season 2)
        (create_time_of_day 3), r.segfrac = segFracValue 2 3) ∧
    ((create_segfrac (segFracValue 2 3) (create_time_season 2)
        (create_time_of_day 3)).map (fun r => r.segfrac)).sum = 1) :=
  ⟨by decide, by decide, segfrac_uniform_weights 2 3 (by decide) (by decide)⟩
